import Mathlib

/-!
Shallow embedding of the equipment data-access layer of the
equipment-dashboard repository (`src/data-access/equipments/index.ts` and its
sibling revision `src/unnamed/part_009`), together with theorems settling the
spec claims about it.

Modelling conventions:
* A Firestore document field that may be absent, explicitly `null`, or carry a
  value is a `Wire a` (absent and null are distinct on the wire; the three
  states matter for the `where('archivedAt','==',null)` query semantics).
* Calendar dates ("yyyy-MM-dd" strings) are parsed to days-since-1970-01-01
  (proleptic Gregorian, the civil-from-days algorithm).  The runtime is
  modelled in UTC, so the instant of a date string is `days * 86400000` ms and
  JavaScript's `setDate(getDate() + k)` is `days + k`.
* Firestore `Timestamp` objects are their millisecond value (`Wire Int`); a
  present timestamp object is always truthy, whatever its value.
* `Array.prototype.sort(comparator)` (a stable comparison sort) is embedded as
  `List.insertionSort` over the relation `comparator a b <= 0`.
* Store reads/writes are made explicit: list operations take the stored
  document list, mutators take the current document and return the written
  document and the appended event; `serverTimestamp()` becomes an explicit
  `now` argument; a store-level query failure is an explicit boolean.
-/

namespace EquipmentDashboard

/-- Wire value of an optional document field: absent, explicit `null`, or a
value.  Legacy documents may lack a field entirely, which Firestore
distinguishes from an explicit `null`. -/
inductive Wire (α : Type)
  | missing
  | null
  | val (a : α)
deriving DecidableEq

/-- JavaScript truthiness of a string-valued field (`undefined`, `null` and
`""` are falsy). -/
def Wire.truthyStr : Wire String → Bool
  | .val s => s ≠ ""
  | _ => false

/-- JavaScript truthiness of a Timestamp-valued field: a present timestamp
object is truthy whatever its millisecond value; `undefined`/`null` are falsy. -/
def Wire.truthyTs : Wire Int → Bool
  | .val _ => true
  | _ => false

/-- `updateDoc` merge for one field: a key deleted from the payload before the
write (the code strips `undefined` values, modelled as `missing`) leaves the
stored value untouched; `null` and plain values overwrite it. -/
def Wire.mergeInto {α : Type} : Wire α → Wire α → Wire α
  | .missing, old => old
  | inp, _ => inp

/- ----------------------------------------------------------------
   Calendar dates: "yyyy-MM-dd" strings and days since 1970-01-01
   ---------------------------------------------------------------- -/

/-- Milliseconds per civil day. -/
def msPerDay : Int := 86400000

/-- Leap year in the proleptic Gregorian calendar. -/
def isLeapYear (y : Nat) : Bool :=
  (y % 4 = 0 && y % 100 ≠ 0) || y % 400 = 0

/-- Number of days of month `m` (1-12) of year `y`. -/
def daysInMonth (y m : Nat) : Nat :=
  if m = 2 then (if isLeapYear y then 29 else 28)
  else if m = 4 ∨ m = 6 ∨ m = 9 ∨ m = 11 then 30
  else 31

/-- Days since 1970-01-01 of the civil date `y-m-d` (days-from-civil
algorithm, floor division). -/
def daysFromCivil (y m d : Nat) : Int :=
  let yi : Int := if m ≤ 2 then (y : Int) - 1 else (y : Int)
  let era : Int := Int.fdiv yi 400
  let yoe : Int := yi - era * 400
  let mp : Int := ((m : Int) + 9) % 12
  let doy : Int := Int.fdiv (153 * mp + 2) 5 + (d : Int) - 1
  let doe : Int := yoe * 365 + Int.fdiv yoe 4 - Int.fdiv yoe 100 + doy
  era * 146097 + doe - 719468

/-- Civil date `(y, m, d)` of a days-since-1970-01-01 count (civil-from-days
algorithm). -/
def civilFromDays (z : Int) : Int × Nat × Nat :=
  let z' := z + 719468
  let era := Int.fdiv z' 146097
  let doe := z' - era * 146097
  let yoe := Int.fdiv (doe - Int.fdiv doe 1460 + Int.fdiv doe 36524 - Int.fdiv doe 146096) 365
  let y := yoe + era * 400
  let doy := doe - (365 * yoe + Int.fdiv yoe 4 - Int.fdiv yoe 100)
  let mp := Int.fdiv (5 * doy + 2) 153
  let da := doy - Int.fdiv (153 * mp + 2) 5 + 1
  let mo := if mp < 10 then mp + 3 else mp - 9
  (if mo ≤ 2 then y + 1 else y, mo.toNat, da.toNat)

/-- Numeric value of a decimal digit character. -/
def digitVal (c : Char) : Option Nat :=
  if '0' ≤ c ∧ c ≤ '9' then some (c.toNat - '0'.toNat) else none

/-- Parse a "yyyy-MM-dd" string to days since 1970-01-01.  Mirrors
`new Date(value + "T00:00:00")` in UTC: a well-formed in-range ISO date parses,
anything else is an invalid date (`none`). -/
def parseDateStr (s : String) : Option Int :=
  match s.toList with
  | [y1, y2, y3, y4, h1, m1, m2, h2, d1, d2] =>
    if h1 = '-' ∧ h2 = '-' then
      match digitVal y1, digitVal y2, digitVal y3, digitVal y4,
            digitVal m1, digitVal m2, digitVal d1, digitVal d2 with
      | some a, some b, some c, some d, some e, some f, some g, some h =>
        let y := ((a * 10 + b) * 10 + c) * 10 + d
        let mo := e * 10 + f
        let da := g * 10 + h
        if 1 ≤ mo ∧ mo ≤ 12 ∧ 1 ≤ da ∧ da ≤ daysInMonth y mo then
          some (daysFromCivil y mo da)
        else none
      | _, _, _, _, _, _, _, _ => none
    else none
  | _ => none

/-- Left-pad a number to two decimal digits. -/
def pad2 (n : Nat) : String :=
  ⟨[Char.ofNat (48 + n / 10 % 10), Char.ofNat (48 + n % 10)]⟩

/-- Left-pad a number to four decimal digits. -/
def pad4 (n : Nat) : String :=
  ⟨[Char.ofNat (48 + n / 1000 % 10), Char.ofNat (48 + n / 100 % 10),
    Char.ofNat (48 + n / 10 % 10), Char.ofNat (48 + n % 10)]⟩

/-- Render a days-since-1970-01-01 count as a "yyyy-MM-dd" string, mirroring
`toISOString().slice(0, 10)` (years 0-9999). -/
def formatDateStr (z : Int) : String :=
  let c := civilFromDays z
  pad4 c.1.toNat ++ "-" ++ pad2 c.2.1 ++ "-" ++ pad2 c.2.2

/-- JavaScript `String.prototype.trim()` over the character list. -/
def trimStr (s : String) : String :=
  ⟨((s.toList.dropWhile Char.isWhitespace).reverse.dropWhile Char.isWhitespace).reverse⟩

/- ----------------------------------------------------------------
   Data model (src/types/equipment.ts, maintenance.ts, events.ts)
   ---------------------------------------------------------------- -/

/-- `EquipmentStatus` of src/types/equipment.ts. -/
inductive EqStatus
  | active
  | inactive
  | maintenance
deriving DecidableEq

/-- One stored document of the `equipments` collection, with its id.  Date
fields are the stored "yyyy-MM-dd" strings, timestamp fields are Firestore
timestamps in milliseconds. -/
structure EqDoc where
  id : String
  name : String
  serialNumber : Wire String
  status : EqStatus
  purchaseDate : Wire String
  lastServiceDate : Wire String
  nextServiceDate : Wire String
  serviceIntervalDays : Wire Int
  owner : Wire String
  location : Wire String
  createdAt : Wire Int
  updatedAt : Wire Int
  createdBy : Wire String
  createdByEmail : Wire String
  updatedBy : Wire String
  updatedByEmail : Wire String
  archivedAt : Wire Int
  archivedBy : Wire String
  archivedByEmail : Wire String
deriving DecidableEq

/-- The caller-supplied `{uid, email}` pair stamped on every mutation. -/
structure Actor where
  uid : String
  email : Option String
deriving DecidableEq

/-- `actor.email ?? null`. -/
def emailOrNull (a : Actor) : Wire String :=
  match a.email with
  | some e => .val e
  | none => .null

/-- `actor.email ?? undefined` followed by the undefined-stripping pass: the
key is deleted from the payload when the actor has no email. -/
def emailOrMissing (a : Actor) : Wire String :=
  match a.email with
  | some e => .val e
  | none => .missing

/-- The `Omit<Equipment,'id'>` value passed by callers of create/update (the
audit and archive fields are filled in by the data-access layer itself). -/
structure EqInput where
  name : String
  serialNumber : Wire String
  status : EqStatus
  purchaseDate : Wire String
  lastServiceDate : Wire String
  nextServiceDate : Wire String
  serviceIntervalDays : Wire Int
  owner : Wire String
  location : Wire String
deriving DecidableEq

/-- Caller input of `addMaintenanceRecord` (`date` and `type` are required by
the `MaintenanceRecord` type). -/
structure MaintInput where
  date : String
  type : String
  notes : Wire String
deriving DecidableEq

/-- A written maintenance sub-collection document. -/
structure MaintRec where
  date : String
  type : String
  notes : Wire String
  createdBy : String
  createdByEmail : Wire String
  createdAt : Int
deriving DecidableEq

/-- A written `events` sub-collection document (metadata flattened to the keys
the code actually writes). -/
structure EqEvent where
  equipmentId : String
  type : String
  actorId : String
  actorEmail : Wire String
  message : String
  metaDate : Wire String
  metaMaintenanceType : Wire String
  metaNextServiceDate : Wire String
  metaServiceIntervalDays : Wire Int
deriving DecidableEq

/- ----------------------------------------------------------------
   Helpers of src/data-access/equipments/index.ts
   ---------------------------------------------------------------- -/

/-- `computeNextServiceDate(lastServiceDate, intervalDays)`: parse the date at
local midnight, add `intervalDays` calendar days, render as "yyyy-MM-dd".
`none` models the `RangeError` thrown by `toISOString()` when the input string
is not a parsable date. -/
def computeNextServiceDate (lastServiceDate : String) (intervalDays : Int) : Option String :=
  (parseDateStr lastServiceDate).map (fun d => formatDateStr (d + intervalDays))

/-- `safeParseDate(value)`: `null`/`undefined`/unparsable strings give `null`;
a parsable "yyyy-MM-dd" string gives its date (as days since the epoch). -/
def safeParseDate : Wire String → Option Int
  | .val s => parseDateStr s
  | _ => none

/-- `getDocTimestampMillis(value)`: a falsy value is 0, a timestamp object
yields its `toMillis()` value. -/
def getDocTimestampMillis : Wire Int → Int
  | .val ms => ms
  | _ => 0

/-- Effective interval used by `getEquipmentNextServiceMillis`:
`typeof serviceIntervalDays === 'number' ? serviceIntervalDays : 180`. -/
def effectiveInterval (e : EqDoc) : Int :=
  match e.serviceIntervalDays with
  | .val n => n
  | _ => 180

/-- `getEquipmentNextServiceMillis(eq)`: the stored `nextServiceDate` wins when
it parses; otherwise `lastServiceDate + serviceIntervalDays` (default 180);
otherwise the sentinel 0. -/
def getEquipmentNextServiceMillis (e : EqDoc) : Int :=
  match safeParseDate e.nextServiceDate with
  | some d => d * msPerDay
  | none =>
    match safeParseDate e.lastServiceDate with
    | none => 0
    | some l => (l + effectiveInterval e) * msPerDay

/-- `statusPriority(status)`: maintenance 0, inactive 1, anything else 2. -/
def statusPriority : EqStatus → Int
  | .maintenance => 0
  | .inactive => 1
  | .active => 2

/- ----------------------------------------------------------------
   Sort comparators (the `.sort((a, b) => ...)` callbacks)
   ---------------------------------------------------------------- -/

/-- `(x || '').localeCompare(y || '')`, modelled as the lexicographic string
order: negative when smaller, 0 when equal, positive when greater. -/
def localeCmp (x y : String) : Int :=
  if x < y then -1 else if y < x then 1 else 0

/-- Comparator of the `updated_desc` client sort:
`getDocTimestampMillis(b.updatedAt) - getDocTimestampMillis(a.updatedAt)`. -/
def cmpUpdatedDesc (a b : EqDoc) : Int :=
  getDocTimestampMillis b.updatedAt - getDocTimestampMillis a.updatedAt

/-- Comparator of the `created_desc` client sort. -/
def cmpCreatedDesc (a b : EqDoc) : Int :=
  getDocTimestampMillis b.createdAt - getDocTimestampMillis a.createdAt

/-- Comparator of the `name_asc` client sort. -/
def cmpNameAsc (a b : EqDoc) : Int :=
  localeCmp a.name b.name

/-- Comparator of the `status_ops` client sort: status priority, then next
service millis ascending, then name. -/
def cmpStatusOps (a b : EqDoc) : Int :=
  if statusPriority a.status ≠ statusPriority b.status then
    statusPriority a.status - statusPriority b.status
  else if getEquipmentNextServiceMillis a ≠ getEquipmentNextServiceMillis b then
    getEquipmentNextServiceMillis a - getEquipmentNextServiceMillis b
  else
    localeCmp a.name b.name

/-- Comparator of the `next_service_asc` client sort: falsy (0) millis go
last, then millis ascending, then most recent update first. -/
def cmpNextService (a b : EqDoc) : Int :=
  if getEquipmentNextServiceMillis a = 0 ∧ getEquipmentNextServiceMillis b ≠ 0 then 1
  else if getEquipmentNextServiceMillis a ≠ 0 ∧ getEquipmentNextServiceMillis b = 0 then -1
  else if getEquipmentNextServiceMillis a ≠ getEquipmentNextServiceMillis b then
    getEquipmentNextServiceMillis a - getEquipmentNextServiceMillis b
  else
    getDocTimestampMillis b.updatedAt - getDocTimestampMillis a.updatedAt

/-- Sorting relation induced by the `updated_desc` comparator. -/
def updatedDescLe (a b : EqDoc) : Prop := cmpUpdatedDesc a b ≤ 0

/-- Sorting relation induced by the `created_desc` comparator. -/
def createdDescLe (a b : EqDoc) : Prop := cmpCreatedDesc a b ≤ 0

/-- Sorting relation induced by the `name_asc` comparator. -/
def nameAscLe (a b : EqDoc) : Prop := cmpNameAsc a b ≤ 0

/-- Sorting relation induced by the `status_ops` comparator. -/
def statusOpsLe (a b : EqDoc) : Prop := cmpStatusOps a b ≤ 0

/-- Sorting relation induced by the `next_service_asc` comparator. -/
def nextServiceLe (a b : EqDoc) : Prop := cmpNextService a b ≤ 0

instance : DecidableRel updatedDescLe :=
  fun a b => inferInstanceAs (Decidable (cmpUpdatedDesc a b ≤ 0))

instance : DecidableRel createdDescLe :=
  fun a b => inferInstanceAs (Decidable (cmpCreatedDesc a b ≤ 0))

instance : DecidableRel nameAscLe :=
  fun a b => inferInstanceAs (Decidable (cmpNameAsc a b ≤ 0))

instance : DecidableRel statusOpsLe :=
  fun a b => inferInstanceAs (Decidable (cmpStatusOps a b ≤ 0))

instance : DecidableRel nextServiceLe :=
  fun a b => inferInstanceAs (Decidable (cmpNextService a b ≤ 0))

/- ----------------------------------------------------------------
   The orderings the comparators realise
   ---------------------------------------------------------------- -/

/-- The `status_ops` ordering contract: maintenance before inactive before
active; within equal status ascending next-service millis; remaining ties by
ascending name. -/
def statusOpsSpecRel (a b : EqDoc) : Prop :=
  statusPriority a.status < statusPriority b.status ∨
    (statusPriority a.status = statusPriority b.status ∧
      (getEquipmentNextServiceMillis a < getEquipmentNextServiceMillis b ∨
        (getEquipmentNextServiceMillis a = getEquipmentNextServiceMillis b ∧
          a.name ≤ b.name)))

/-- The `next_service_asc` ordering contract actually realised by the code:
records with a nonzero next-service millis value come first in ascending
order, records with the sentinel value 0 come last, and ties on the millis
value are broken by most recent update first. -/
def nextServiceSpecRel (a b : EqDoc) : Prop :=
  (getEquipmentNextServiceMillis a ≠ 0 ∧ getEquipmentNextServiceMillis b = 0) ∨
    (getEquipmentNextServiceMillis a ≠ 0 ∧ getEquipmentNextServiceMillis b ≠ 0 ∧
      getEquipmentNextServiceMillis a < getEquipmentNextServiceMillis b) ∨
    (getEquipmentNextServiceMillis a = getEquipmentNextServiceMillis b ∧
      getDocTimestampMillis b.updatedAt ≤ getDocTimestampMillis a.updatedAt)

theorem localeCmp_le_iff (x y : String) : localeCmp x y ≤ 0 ↔ x ≤ y := by
  unfold localeCmp
  split_ifs with h1 h2
  · simp [le_of_lt h1]
  · constructor
    · intro h; omega
    · intro h; exact absurd h (not_le_of_lt h2)
  · have hxy : x = y := le_antisymm (not_lt.mp h2) (not_lt.mp h1)
    simp [hxy]

theorem statusOpsLe_iff (a b : EqDoc) : statusOpsLe a b ↔ statusOpsSpecRel a b := by
  unfold statusOpsLe cmpStatusOps statusOpsSpecRel
  split_ifs with h1 h2
  · constructor
    · intro h; exact Or.inl (by omega)
    · rintro (h | ⟨he, _⟩)
      · omega
      · exact absurd he h1
  · constructor
    · intro h
      exact Or.inr ⟨by omega, Or.inl (by omega)⟩
    · rintro (h | ⟨he, hm | ⟨hm, _⟩⟩)
      · omega
      · omega
      · exact absurd hm h2
  · rw [localeCmp_le_iff]
    constructor
    · intro h
      exact Or.inr ⟨by omega, Or.inr ⟨by omega, h⟩⟩
    · rintro (h | ⟨he, hm | ⟨hm, hn⟩⟩)
      · omega
      · omega
      · exact hn

theorem nextServiceLe_iff (a b : EqDoc) : nextServiceLe a b ↔ nextServiceSpecRel a b := by
  unfold nextServiceLe cmpNextService nextServiceSpecRel
  split_ifs with h1 h2 h3 <;> omega

instance : IsTotal EqDoc updatedDescLe :=
  ⟨by intro a b; unfold updatedDescLe cmpUpdatedDesc; omega⟩

instance : IsTrans EqDoc updatedDescLe :=
  ⟨by intro a b c; unfold updatedDescLe cmpUpdatedDesc; omega⟩

instance : IsTotal EqDoc createdDescLe :=
  ⟨by intro a b; unfold createdDescLe cmpCreatedDesc; omega⟩

instance : IsTrans EqDoc createdDescLe :=
  ⟨by intro a b c; unfold createdDescLe cmpCreatedDesc; omega⟩

instance : IsTotal EqDoc nameAscLe := by
  constructor
  intro a b
  unfold nameAscLe cmpNameAsc
  rw [localeCmp_le_iff, localeCmp_le_iff]
  exact le_total a.name b.name

instance : IsTrans EqDoc nameAscLe := by
  constructor
  intro a b c hab hbc
  unfold nameAscLe cmpNameAsc at *
  rw [localeCmp_le_iff] at *
  exact le_trans hab hbc

instance : IsTotal EqDoc statusOpsLe := by
  constructor
  intro a b
  rw [statusOpsLe_iff, statusOpsLe_iff]
  unfold statusOpsSpecRel
  rcases lt_trichotomy (statusPriority a.status) (statusPriority b.status) with hp | hp | hp
  · exact Or.inl (Or.inl hp)
  · rcases lt_trichotomy (getEquipmentNextServiceMillis a) (getEquipmentNextServiceMillis b)
      with hm | hm | hm
    · exact Or.inl (Or.inr ⟨hp, Or.inl hm⟩)
    · rcases le_total a.name b.name with hn | hn
      · exact Or.inl (Or.inr ⟨hp, Or.inr ⟨hm, hn⟩⟩)
      · exact Or.inr (Or.inr ⟨hp.symm, Or.inr ⟨hm.symm, hn⟩⟩)
    · exact Or.inr (Or.inr ⟨hp.symm, Or.inl hm⟩)
  · exact Or.inr (Or.inl hp)

instance : IsTrans EqDoc statusOpsLe := by
  constructor
  intro a b c hab hbc
  rw [statusOpsLe_iff] at *
  unfold statusOpsSpecRel at *
  rcases hab with hp1 | ⟨hp1, hm1⟩
  · rcases hbc with hp2 | ⟨hp2, _⟩
    · exact Or.inl (by omega)
    · exact Or.inl (by omega)
  · rcases hbc with hp2 | ⟨hp2, hm2⟩
    · exact Or.inl (by omega)
    · refine Or.inr ⟨by omega, ?_⟩
      rcases hm1 with hm1 | ⟨hm1, hn1⟩
      · rcases hm2 with hm2 | ⟨hm2, _⟩
        · exact Or.inl (by omega)
        · exact Or.inl (by omega)
      · rcases hm2 with hm2 | ⟨hm2, hn2⟩
        · exact Or.inl (by omega)
        · exact Or.inr ⟨by omega, le_trans hn1 hn2⟩

instance : IsTotal EqDoc nextServiceLe := by
  constructor
  intro a b
  rw [nextServiceLe_iff, nextServiceLe_iff]
  unfold nextServiceSpecRel
  omega

instance : IsTrans EqDoc nextServiceLe := by
  constructor
  intro a b c hab hbc
  rw [nextServiceLe_iff] at *
  unfold nextServiceSpecRel at *
  omega

/- ----------------------------------------------------------------
   getEquipmentsList (both revisions)
   ---------------------------------------------------------------- -/

/-- `EquipmentsSort` of src/data-access/equipments/index.ts. -/
inductive EquipmentsSort
  | updated_desc
  | created_desc
  | name_asc
  | status_ops
  | next_service_asc
deriving DecidableEq

/-- `GetEquipmentsListOptions` (`limit` destructured as `max`). -/
structure ListOpts where
  includeArchived : Bool
  sort : EquipmentsSort
  max : Option Nat
deriving DecidableEq

/-- Client-side archive filter: `list.filter((e) => !e?.archivedAt)` — a
truthy `archivedAt` (a timestamp object) drops the record, absence and `null`
keep it. -/
def activeClientFilter (docs : List EqDoc) : List EqDoc :=
  docs.filter (fun e => !(Wire.truthyTs e.archivedAt))

/-- Server-side `where('archivedAt', '==', null)`: Firestore equality with
`null` matches only documents whose field is present and explicitly `null`;
documents lacking the field do not match. -/
def whereNullFilter (docs : List EqDoc) : List EqDoc :=
  docs.filter (fun e => decide (e.archivedAt = Wire.null))

/-- The server-side `orderBy` clause pushed for each sort mode: `updatedAt`
descending for `updated_desc` (and as the stable base of the client-sorted
modes), `createdAt` descending, or `name` ascending.  The store's ordering is
modelled as a stable sort by the named field. -/
def serverOrdered (s : EquipmentsSort) (l : List EqDoc) : List EqDoc :=
  match s with
  | .created_desc => l.insertionSort createdDescLe
  | .name_asc => l.insertionSort nameAscLe
  | _ => l.insertionSort updatedDescLe

/-- The client-side sort used on the fallback path (all five modes sort
locally there). -/
def clientSort (s : EquipmentsSort) (l : List EqDoc) : List EqDoc :=
  match s with
  | .updated_desc => l.insertionSort updatedDescLe
  | .created_desc => l.insertionSort createdDescLe
  | .name_asc => l.insertionSort nameAscLe
  | .status_ops => l.insertionSort statusOpsLe
  | .next_service_asc => l.insertionSort nextServiceLe

/-- `limit(max)` / `list.slice(0, max)`. -/
def applyMax (m : Option Nat) (l : List EqDoc) : List EqDoc :=
  match m with
  | some n => l.take n
  | none => l

/-- `getEquipmentsList(options)` of src/data-access/equipments/index.ts.
`queryFails = true` models the store rejecting the built query (e.g. a
missing index), which lands in the `catch` branch: fetch the whole unfiltered
collection, filter archived client-side, sort client-side, slice.  On the
non-failing path the archive filter is the server-side
`where('archivedAt','==',null)` clause, the store orders and limits, and only
`status_ops` / `next_service_asc` are re-sorted client-side. -/
def getEquipmentsList (docs : List EqDoc) (opts : ListOpts) (queryFails : Bool) : List EqDoc :=
  if queryFails then
    let l1 := if opts.includeArchived then docs else activeClientFilter docs
    applyMax opts.max (clientSort opts.sort l1)
  else
    let f := if opts.includeArchived then docs else whereNullFilter docs
    let t := applyMax opts.max (serverOrdered opts.sort f)
    match opts.sort with
    | .status_ops => t.insertionSort statusOpsLe
    | .next_service_asc => t.insertionSort nextServiceLe
    | _ => t

/-- `getEquipmentsList(options)` of the src/unnamed/part_009 revision: no
`where` clause ever — the archive filter is always client-side; the special
sorts run client-side after the filter; `slice(0, max)` runs last (the
non-failing path additionally pushed `limit` into the query). -/
def getEquipmentsListClient (docs : List EqDoc) (opts : ListOpts) (queryFails : Bool) :
    List EqDoc :=
  let base := if queryFails then docs else applyMax opts.max (serverOrdered opts.sort docs)
  let l1 := if opts.includeArchived then base else activeClientFilter base
  let l2 :=
    match opts.sort with
    | .status_ops => l1.insertionSort statusOpsLe
    | .next_service_asc => l1.insertionSort nextServiceLe
    | _ => l1
  applyMax opts.max l2

/- ----------------------------------------------------------------
   Mutating operations
   ---------------------------------------------------------------- -/

/-- Typed failures of the mutating operations: the `SERIAL_ALREADY_EXISTS`
error of the serial-conflict check, and the `RangeError` reaching the caller
when `computeNextServiceDate` is fed an unparsable date. -/
inductive OpError
  | serialConflict
  | invalidDate
deriving DecidableEq

/-- `value?.trim()`: `undefined` when the field is absent or `null`, the
trimmed string otherwise. -/
def optTrim : Wire String → Option String
  | .val s => some (trimStr s)
  | _ => none

/-- The right operand of the `||` in the shared `next` computation:
`data.lastServiceDate ? computeNextServiceDate(data.lastServiceDate, interval)
: undefined`, where a thrown `RangeError` surfaces as `.invalidDate`. -/
def lastFallback (data : EqInput) (interval : Int) : Except OpError (Wire String) :=
  match data.lastServiceDate with
  | .val t =>
    if t ≠ "" then
      match computeNextServiceDate t interval with
      | some r => .ok (.val r)
      | none => .error .invalidDate
    else .ok .missing
  | _ => .ok .missing

/-- The shared `next` computation of create/update:
`data.nextServiceDate?.trim() || (data.lastServiceDate ?
computeNextServiceDate(data.lastServiceDate, interval) : undefined)`.
A `missing` result is the `undefined` branch, whose key the code strips from
the payload. -/
def computeNextField (data : EqInput) (interval : Int) : Except OpError (Wire String) :=
  match optTrim data.nextServiceDate with
  | some s => if s ≠ "" then .ok (.val s) else lastFallback data interval
  | none => lastFallback data interval

/-- `data.serviceIntervalDays ?? 180` (nullish coalescing). -/
def inputInterval (data : EqInput) : Int :=
  match data.serviceIntervalDays with
  | .val n => n
  | _ => 180

/-- The document written by `addDoc` in `createEquipment`: the input spread,
the computed interval and next date, the audit stamps, and the archive fields
explicitly `null`. -/
def createdDoc (data : EqInput) (actor : Actor) (now : Int) (newId : String)
    (next : Wire String) (interval : Int) : EqDoc where
  id := newId
  name := data.name
  serialNumber := data.serialNumber
  status := data.status
  purchaseDate := data.purchaseDate
  lastServiceDate := data.lastServiceDate
  nextServiceDate := next
  serviceIntervalDays := .val interval
  owner := data.owner
  location := data.location
  createdAt := .val now
  updatedAt := .val now
  createdBy := .val actor.uid
  createdByEmail := emailOrMissing actor
  updatedBy := .val actor.uid
  updatedByEmail := emailOrMissing actor
  archivedAt := .null
  archivedBy := .null
  archivedByEmail := .null

/-- `createEquipment(data, actor)` of src/data-access/equipments/index.ts.
This revision performs no read of the store at all — in particular no serial
number validation — and on success writes the new document and its
`equipment.created` event. -/
def createEquipment (store : List EqDoc) (data : EqInput) (actor : Actor) (now : Int)
    (newId : String) : Except OpError (EqDoc × EqEvent) :=
  match computeNextField data (inputInterval data) with
  | .error e => .error e
  | .ok next =>
    .ok (createdDoc data actor now newId next (inputInterval data),
      { equipmentId := newId
        type := "equipment.created"
        actorId := actor.uid
        actorEmail := emailOrNull actor
        message := "Asset created"
        metaDate := .missing
        metaMaintenanceType := .missing
        metaNextServiceDate := .missing
        metaServiceIntervalDays := .missing })

/-- The serial-conflict test of the part_009 revision of `createEquipment`:
fetch every document whose `serialNumber` equals the trimmed input serial and
block when any of them is not archived (a missing `archivedAt` counts as not
archived). -/
def serialConflictExists (store : List EqDoc) (serial : String) : Bool :=
  (store.filter (fun d => decide (d.serialNumber = Wire.val serial))).any
    (fun d => !(Wire.truthyTs d.archivedAt))

/-- `createEquipment(data, actor)` of the src/unnamed/part_009 revision: when
`data.serialNumber?.trim()` is truthy and an active stored record carries that
serial, fail with `SERIAL_ALREADY_EXISTS`; otherwise proceed exactly as the
unchecked create. -/
def createEquipmentChecked (store : List EqDoc) (data : EqInput) (actor : Actor) (now : Int)
    (newId : String) : Except OpError (EqDoc × EqEvent) :=
  if (match optTrim data.serialNumber with
      | some s => s ≠ "" && serialConflictExists store s
      | none => false) then
    .error .serialConflict
  else createEquipment store data actor now newId

/-- `updateEquipment(id, data, actor)` (identical in both revisions): build
the payload from the input spread plus the recomputed interval/next date and
the update stamps, strip `undefined` keys, and merge it into the stored
document with `updateDoc`. -/
def updateEquipment (d : EqDoc) (data : EqInput) (actor : Actor) (now : Int) :
    Except OpError (EqDoc × EqEvent) :=
  match computeNextField data (inputInterval data) with
  | .error e => .error e
  | .ok next =>
    .ok ({ d with
        name := data.name
        serialNumber := Wire.mergeInto data.serialNumber d.serialNumber
        status := data.status
        purchaseDate := Wire.mergeInto data.purchaseDate d.purchaseDate
        lastServiceDate := Wire.mergeInto data.lastServiceDate d.lastServiceDate
        nextServiceDate := Wire.mergeInto next d.nextServiceDate
        serviceIntervalDays := .val (inputInterval data)
        owner := Wire.mergeInto data.owner d.owner
        location := Wire.mergeInto data.location d.location
        updatedBy := .val actor.uid
        updatedByEmail := Wire.mergeInto (emailOrMissing actor) d.updatedByEmail
        updatedAt := .val now },
      { equipmentId := d.id
        type := "equipment.updated"
        actorId := actor.uid
        actorEmail := emailOrNull actor
        message := "Asset updated"
        metaDate := .missing
        metaMaintenanceType := .missing
        metaNextServiceDate := .missing
        metaServiceIntervalDays := .missing })

/-- `archiveEquipment(id, actor)`: stamp the archive fields with the server
timestamp and the actor, stamp the update fields, append the
`equipment.archived` event. -/
def archiveEquipment (d : EqDoc) (actor : Actor) (now : Int) : EqDoc × EqEvent :=
  ({ d with
      archivedAt := .val now
      archivedBy := .val actor.uid
      archivedByEmail := emailOrNull actor
      updatedBy := .val actor.uid
      updatedByEmail := emailOrNull actor
      updatedAt := .val now },
    { equipmentId := d.id
      type := "equipment.archived"
      actorId := actor.uid
      actorEmail := emailOrNull actor
      message := "Asset archived"
      metaDate := .missing
      metaMaintenanceType := .missing
      metaNextServiceDate := .missing
      metaServiceIntervalDays := .missing })

/-- `unarchiveEquipment(id, actor)`: archive fields back to explicit `null`,
update fields stamped, `equipment.unarchived` event appended. -/
def unarchiveEquipment (d : EqDoc) (actor : Actor) (now : Int) : EqDoc × EqEvent :=
  ({ d with
      archivedAt := .null
      archivedBy := .null
      archivedByEmail := .null
      updatedBy := .val actor.uid
      updatedByEmail := emailOrNull actor
      updatedAt := .val now },
    { equipmentId := d.id
      type := "equipment.unarchived"
      actorId := actor.uid
      actorEmail := emailOrNull actor
      message := "Asset restored"
      metaDate := .missing
      metaMaintenanceType := .missing
      metaNextServiceDate := .missing
      metaServiceIntervalDays := .missing })

/-- `data.notes?.trim() || undefined`, with the `undefined` key stripped. -/
def notesNorm : Wire String → Wire String
  | .val s => if trimStr s = "" then .missing else .val (trimStr s)
  | _ => .missing

/-- The maintenance sub-collection document written by `addMaintenanceRecord`. -/
def maintWritten (data : MaintInput) (actor : Actor) (now : Int) : MaintRec where
  date := data.date
  type := data.type
  notes := notesNorm data.notes
  createdBy := actor.uid
  createdByEmail := emailOrNull actor
  createdAt := now

/-- `addMaintenanceRecord(equipmentId, data, actor)` of
src/data-access/equipments/index.ts.  This revision writes the maintenance
record and the `maintenance.added` event (metadata `{date, maintenanceType}`)
but never reads or patches the parent equipment document, which it returns
unchanged. -/
def addMaintenanceRecord (parent : EqDoc) (data : MaintInput) (actor : Actor) (now : Int) :
    MaintRec × EqDoc × EqEvent :=
  (maintWritten data actor now,
    parent,
    { equipmentId := parent.id
      type := "maintenance.added"
      actorId := actor.uid
      actorEmail := emailOrNull actor
      message := "Maintenance record added"
      metaDate := .val data.date
      metaMaintenanceType := .val data.type
      metaNextServiceDate := .missing
      metaServiceIntervalDays := .missing })

/-- `addMaintenanceRecord(equipmentId, data, actor)` of the
src/unnamed/part_009 revision: write the record, read the parent's stored
`serviceIntervalDays` (180 when not a number), recompute
`nextServiceDate = record.date + interval`, patch the parent's
`lastServiceDate` / `nextServiceDate` / update stamps, and append the
`maintenance.added` event carrying the computed metadata. -/
def addMaintenanceRecordFull (parent : EqDoc) (data : MaintInput) (actor : Actor) (now : Int) :
    Except OpError (MaintRec × EqDoc × EqEvent) :=
  let interval := effectiveInterval parent
  match computeNextServiceDate data.date interval with
  | none => .error .invalidDate
  | some nsd =>
    .ok (maintWritten data actor now,
      { parent with
          lastServiceDate := .val data.date
          nextServiceDate := .val nsd
          updatedBy := .val actor.uid
          updatedByEmail := emailOrNull actor
          updatedAt := .val now },
      { equipmentId := parent.id
        type := "maintenance.added"
        actorId := actor.uid
        actorEmail := emailOrNull actor
        message := "Maintenance record added"
        metaDate := .val data.date
        metaMaintenanceType := .val data.type
        metaNextServiceDate := .val nsd
        metaServiceIntervalDays := .val interval })

instance {ε α : Type} [DecidableEq ε] [DecidableEq α] : DecidableEq (Except ε α) :=
  fun a b =>
    match a, b with
    | .ok x, .ok y =>
      if h : x = y then .isTrue (by rw [h]) else .isFalse (by simp [h])
    | .error x, .error y =>
      if h : x = y then .isTrue (by rw [h]) else .isFalse (by simp [h])
    | .ok _, .error _ => .isFalse (by simp)
    | .error _, .ok _ => .isFalse (by simp)

/-- Whether an operation succeeded. -/
def opOk {α : Type} : Except OpError α → Bool
  | .ok _ => true
  | .error _ => false

/-- The only error `lastFallback` can produce is the invalid-date one. -/
theorem lastFallback_error (data : EqInput) (iv : Int) (er : OpError)
    (h : lastFallback data iv = .error er) : er = OpError.invalidDate := by
  unfold lastFallback at h
  split at h
  · split at h
    · split at h
      · exact absurd h (by simp)
      · simpa using h.symm
    · exact absurd h (by simp)
  · exact absurd h (by simp)

/-- The only error `computeNextField` can produce is the invalid-date one. -/
theorem computeNextField_error (data : EqInput) (iv : Int) (er : OpError)
    (h : computeNextField data iv = .error er) : er = OpError.invalidDate := by
  unfold computeNextField at h
  split at h
  · split at h
    · exact absurd h (by simp)
    · exact lastFallback_error data iv er h
  · exact lastFallback_error data iv er h

/-- The index.ts revision of `createEquipment` never produces the serial
conflict error (it performs no serial validation at all). -/
theorem createEquipment_never_serial_conflict (store : List EqDoc) (data : EqInput)
    (actor : Actor) (now : Int) (newId : String) :
    createEquipment store data actor now newId ≠ Except.error OpError.serialConflict := by
  unfold createEquipment
  intro h
  split at h
  · rename_i er hnx
    have := computeNextField_error data (inputInterval data) er hnx
    simp_all
  · exact absurd h (by simp)

/- ----------------------------------------------------------------
   The ordering contract of each sort mode
   ---------------------------------------------------------------- -/

/-- The pairwise ordering contract each sort mode promises for the returned
list. -/
def modeRel : EquipmentsSort → EqDoc → EqDoc → Prop
  | .updated_desc => fun a b =>
      getDocTimestampMillis b.updatedAt ≤ getDocTimestampMillis a.updatedAt
  | .created_desc => fun a b =>
      getDocTimestampMillis b.createdAt ≤ getDocTimestampMillis a.createdAt
  | .name_asc => fun a b => a.name ≤ b.name
  | .status_ops => statusOpsSpecRel
  | .next_service_asc => nextServiceSpecRel

theorem updatedDescLe_iff (a b : EqDoc) :
    updatedDescLe a b ↔ getDocTimestampMillis b.updatedAt ≤ getDocTimestampMillis a.updatedAt := by
  unfold updatedDescLe cmpUpdatedDesc
  omega

theorem createdDescLe_iff (a b : EqDoc) :
    createdDescLe a b ↔ getDocTimestampMillis b.createdAt ≤ getDocTimestampMillis a.createdAt := by
  unfold createdDescLe cmpCreatedDesc
  omega

theorem nameAscLe_iff (a b : EqDoc) : nameAscLe a b ↔ a.name ≤ b.name := by
  unfold nameAscLe cmpNameAsc
  exact localeCmp_le_iff a.name b.name

/-- The client-side sort of every mode is a permutation of its input. -/
theorem clientSort_perm (s : EquipmentsSort) (l : List EqDoc) : (clientSort s l).Perm l := by
  cases s <;> exact List.perm_insertionSort _ _

/-- The client-side sort of every mode satisfies that mode's ordering
contract. -/
theorem clientSort_sorted (s : EquipmentsSort) (l : List EqDoc) :
    (clientSort s l).Pairwise (modeRel s) := by
  cases s
  case updated_desc =>
    exact (List.sorted_insertionSort _ _).imp fun h => (updatedDescLe_iff _ _).mp h
  case created_desc =>
    exact (List.sorted_insertionSort _ _).imp fun h => (createdDescLe_iff _ _).mp h
  case name_asc =>
    exact (List.sorted_insertionSort _ _).imp fun h => (nameAscLe_iff _ _).mp h
  case status_ops =>
    exact (List.sorted_insertionSort _ _).imp fun h => (statusOpsLe_iff _ _).mp h
  case next_service_asc =>
    exact (List.sorted_insertionSort _ _).imp fun h => (nextServiceLe_iff _ _).mp h

/-- The spec's notion of "has a derivable next-service instant": a parsable
stored `nextServiceDate`, or a parsable `lastServiceDate`.  Written from the
claim's wording, to be compared with the code's millis sentinel. -/
def specHasDerivableInstant (e : EqDoc) : Bool :=
  (safeParseDate e.nextServiceDate).isSome || (safeParseDate e.lastServiceDate).isSome

/- ----------------------------------------------------------------
   Concrete fixtures for witnesses and counterexamples
   ---------------------------------------------------------------- -/

/-- A document with every optional field absent. -/
def blankDoc : EqDoc where
  id := ""
  name := ""
  serialNumber := .missing
  status := .active
  purchaseDate := .missing
  lastServiceDate := .missing
  nextServiceDate := .missing
  serviceIntervalDays := .missing
  owner := .missing
  location := .missing
  createdAt := .missing
  updatedAt := .missing
  createdBy := .missing
  createdByEmail := .missing
  updatedBy := .missing
  updatedByEmail := .missing
  archivedAt := .missing
  archivedBy := .missing
  archivedByEmail := .missing

/-- A caller input with every optional field absent. -/
def blankInput : EqInput where
  name := ""
  serialNumber := .missing
  status := .active
  purchaseDate := .missing
  lastServiceDate := .missing
  nextServiceDate := .missing
  serviceIntervalDays := .missing
  owner := .missing
  location := .missing

def actorA : Actor := { uid := "u1", email := some "one@example.test" }

def actorB : Actor := { uid := "u2", email := some "two@example.test" }

/-- A record with a stored next-service date. -/
def eqStored : EqDoc :=
  { blankDoc with
      id := "eq-stored"
      nextServiceDate := Wire.val "2026-01-11"
      lastServiceDate := Wire.val "2020-01-01"
      serviceIntervalDays := Wire.val 30 }

/-- A record deriving its next service from `lastServiceDate` with the default
interval. -/
def eqDerived : EqDoc :=
  { blankDoc with id := "eq-derived", lastServiceDate := Wire.val "2025-07-15" }

/-- A legacy active document lacking the `archivedAt` field entirely. -/
def legacyDoc : EqDoc :=
  { blankDoc with id := "legacy-1", name := "Old pump", updatedAt := Wire.val 1000 }

/-- An active document with the explicit `archivedAt: null` written by
`createEquipment`. -/
def nullArchDoc : EqDoc :=
  { blankDoc with
      id := "eq-2", name := "Press", archivedAt := Wire.null, updatedAt := Wire.val 2000 }

/-- An archived document. -/
def archDoc : EqDoc :=
  { blankDoc with
      id := "eq-3", name := "Lathe", archivedAt := Wire.val 3000, updatedAt := Wire.val 3000 }

/-- An active stored record holding serial "SN-1". -/
def activeSN1 : EqDoc :=
  { blankDoc with
      id := "eq-sn1", name := "Generator", serialNumber := Wire.val "SN-1"
      archivedAt := Wire.null }

/-- A create input reusing serial "SN-1". -/
def inputSN1 : EqInput :=
  { blankInput with name := "New generator", serialNumber := Wire.val "SN-1" }

/-- The C4 scenario parent: `serviceIntervalDays = 90`. -/
def parent90 : EqDoc :=
  { blankDoc with
      id := "eq-90", name := "Mill", serviceIntervalDays := Wire.val 90
      lastServiceDate := Wire.val "2025-01-01", nextServiceDate := Wire.val "2025-04-01" }

/-- The C4 scenario maintenance input. -/
def maintFeb : MaintInput := { date := "2026-02-01", type := "preventive", notes := .missing }

/-- A record whose stored next-service date is exactly the epoch, so its
derived instant is the sentinel value 0. -/
def epochNextDoc : EqDoc :=
  { blankDoc with
      id := "eq-epoch", name := "Boiler", nextServiceDate := Wire.val "1970-01-01"
      updatedAt := Wire.val 1 }

/-- A record with no parsable dates at all. -/
def noDatesDoc : EqDoc :=
  { blankDoc with id := "eq-nodates", name := "Crane", updatedAt := Wire.val 5 }

/-- Active record, most recently updated (for the limit interplay). -/
def dOpsA : EqDoc :=
  { blankDoc with
      id := "ops-a", name := "A", status := .active, updatedAt := Wire.val 100
      archivedAt := Wire.null }

/-- Maintenance-status record, updated earlier (for the limit interplay). -/
def dOpsB : EqDoc :=
  { blankDoc with
      id := "ops-b", name := "B", status := .maintenance, updatedAt := Wire.val 50
      archivedAt := Wire.null }

/-- A never-archived document last updated by user "u1". -/
def docU1 : EqDoc :=
  { blankDoc with
      id := "eq-u1", name := "Saw", updatedBy := Wire.val "u1"
      updatedByEmail := Wire.val "one@example.test"
      archivedAt := Wire.null, archivedBy := Wire.null, archivedByEmail := Wire.null }

/-- A stored record with interval 365 and a stored next date, to be
overwritten by an update omitting both. -/
def docIv365 : EqDoc :=
  { blankDoc with
      id := "eq-365", serviceIntervalDays := Wire.val 365
      nextServiceDate := Wire.val "2099-01-01" }

/-- An update input carrying only a name and a last-service date. -/
def inputLast : EqInput :=
  { blankInput with name := "Pump", lastServiceDate := Wire.val "2025-07-15" }

/- ----------------------------------------------------------------
   Claims
   ---------------------------------------------------------------- -/

/-- C1: `getEquipmentNextServiceMillis` returns the stored `nextServiceDate`'s
instant when that field holds a parsable date string (the stored value takes
precedence over derivation); otherwise, for a parsable `lastServiceDate`, it
returns `lastServiceDate + serviceIntervalDays` days, where the interval
defaults to 180 when `serviceIntervalDays` is absent or not a number. -/
theorem c1_effective_next_service (e : EqDoc) :
    (∀ s d, e.nextServiceDate = Wire.val s → parseDateStr s = some d →
      getEquipmentNextServiceMillis e = d * msPerDay) ∧
    (safeParseDate e.nextServiceDate = none →
      ∀ t l, e.lastServiceDate = Wire.val t → parseDateStr t = some l →
        getEquipmentNextServiceMillis e = (l + effectiveInterval e) * msPerDay) ∧
    ((e.serviceIntervalDays = Wire.missing ∨ e.serviceIntervalDays = Wire.null) →
      effectiveInterval e = 180) := by
  refine ⟨?_, ?_, ?_⟩
  · intro s d hs hd
    unfold getEquipmentNextServiceMillis
    rw [show safeParseDate e.nextServiceDate = some d by rw [hs]; simpa [safeParseDate] using hd]
  · intro hnone t l ht hl
    unfold getEquipmentNextServiceMillis
    rw [hnone, show safeParseDate e.lastServiceDate = some l by
      rw [ht]; simpa [safeParseDate] using hl]
  · rintro (h | h) <;> simp [effectiveInterval, h]

/-- Witness for C1 at the spec's concrete scenario: a stored "2026-01-11"
wins, and "2025-07-15" with no stored interval derives +180 days. -/
theorem c1_effective_next_service_witness :
    getEquipmentNextServiceMillis eqStored = daysFromCivil 2026 1 11 * msPerDay ∧
    getEquipmentNextServiceMillis eqDerived = (daysFromCivil 2025 7 15 + 180) * msPerDay := by
  constructor
  · exact (c1_effective_next_service eqStored).1 "2026-01-11" (daysFromCivil 2026 1 11)
      rfl (by decide)
  · have h := (c1_effective_next_service eqDerived).2.1 (by decide) "2025-07-15"
      (daysFromCivil 2025 7 15) rfl (by decide)
    have hi : effectiveInterval eqDerived = 180 :=
      (c1_effective_next_service eqDerived).2.2 (Or.inl rfl)
    rw [hi] at h
    exact h

/-- C2 (failing input): on the non-failing path with `includeArchived = false`,
the index.ts revision of `getEquipmentsList` pushes
`where('archivedAt','==',null)` to the store, so a legacy active document
lacking the `archivedAt` field is dropped even though it is active; the
part_009 revision, which filters client-side, returns it. -/
theorem c2_where_filter_drops_legacy :
    getEquipmentsList [legacyDoc, nullArchDoc, archDoc]
        { includeArchived := false, sort := .updated_desc, max := none } false
      = [nullArchDoc] ∧
    Wire.truthyTs legacyDoc.archivedAt = false ∧
    getEquipmentsListClient [legacyDoc, nullArchDoc, archDoc]
        { includeArchived := false, sort := .updated_desc, max := none } false
      = [nullArchDoc, legacyDoc] := by decide

/-- Supporting C2 exactness on the intended (part_009) revision: with
`includeArchived = false` and no limit, the returned list is a permutation of
exactly the active records (truthy `archivedAt` dropped; absent and `null`
treated identically). -/
theorem clientList_returns_exactly_active (docs : List EqDoc) (s : EquipmentsSort)
    (fails : Bool) :
    (getEquipmentsListClient docs { includeArchived := false, sort := s, max := none }
        fails).Perm (activeClientFilter docs) := by
  have hfil : ∀ s' : EquipmentsSort,
      (activeClientFilter (if fails = true then docs else serverOrdered s' docs)).Perm
        (activeClientFilter docs) := by
    intro s'
    cases fails
    · have hp : (serverOrdered s' docs).Perm docs := by
        cases s' <;> exact List.perm_insertionSort _ _
      simpa [activeClientFilter] using hp.filter (fun e => !(Wire.truthyTs e.archivedAt))
    · simp
  cases s <;>
    simp only [getEquipmentsListClient, Bool.false_eq_true, if_false, applyMax] <;>
    first
      | exact (List.perm_insertionSort _ _).trans (hfil _)
      | exact hfil _

/-- C3 (failing input): with an active stored record holding serial "SN-1",
the index.ts revision of `createEquipment` performs no serial validation and
succeeds, while the part_009 revision fails with `SERIAL_ALREADY_EXISTS` and
succeeds again once the conflicting record is archived. -/
theorem c3_create_skips_serial_check :
    opOk (createEquipment [activeSN1] inputSN1 actorA 5000 "eq-new") = true ∧
    createEquipmentChecked [activeSN1] inputSN1 actorA 5000 "eq-new"
      = .error .serialConflict ∧
    opOk (createEquipmentChecked [(archiveEquipment activeSN1 actorB 4000).1] inputSN1 actorA
      5000 "eq-new") = true := by decide

/-- Supporting C3 on the intended (part_009) revision: for a nonempty trimmed
input serial, the checked create fails with the serial conflict exactly when
some active stored record carries that serial. -/
theorem createChecked_conflict_iff (store : List EqDoc) (data : EqInput) (actor : Actor)
    (now : Int) (newId : String) (s : String) (hs : optTrim data.serialNumber = some s)
    (hne : s ≠ "") :
    createEquipmentChecked store data actor now newId = .error .serialConflict ↔
      ∃ d ∈ store, d.serialNumber = Wire.val s ∧ Wire.truthyTs d.archivedAt = false := by
  have hex : serialConflictExists store s = true ↔
      ∃ d ∈ store, d.serialNumber = Wire.val s ∧ Wire.truthyTs d.archivedAt = false := by
    unfold serialConflictExists
    rw [List.any_eq_true]
    constructor
    · rintro ⟨d, hd, hact⟩
      rw [List.mem_filter] at hd
      exact ⟨d, hd.1, by simpa using hd.2, by simpa using hact⟩
    · rintro ⟨d, hd, hser, hact⟩
      exact ⟨d, by rw [List.mem_filter]; exact ⟨hd, by simp [hser]⟩, by simp [hact]⟩
  unfold createEquipmentChecked
  rw [hs]
  by_cases hc : serialConflictExists store s = true
  · have hcond : (decide (s ≠ "") && serialConflictExists store s) = true := by
      rw [hc]; simp [hne]
    rw [if_pos hcond]
    exact iff_of_true rfl (hex.mp hc)
  · have hcond : ¬((decide (s ≠ "") && serialConflictExists store s) = true) := by
      simp only [Bool.and_eq_true]
      rintro ⟨-, h⟩
      exact hc h
    rw [if_neg hcond]
    exact iff_of_false (createEquipment_never_serial_conflict store data actor now newId)
      (fun h => hc (hex.mpr h))

/-- C4 (failing input): the index.ts revision of `addMaintenanceRecord` leaves
the parent document untouched (no `lastServiceDate`/`nextServiceDate` patch),
while the part_009 revision realises the claim's scenario: date "2026-02-01"
with interval 90 patches the parent to lastServiceDate "2026-02-01" and
nextServiceDate "2026-05-02". -/
theorem c4_add_maintenance_never_patches_parent :
    (addMaintenanceRecord parent90 maintFeb actorA 7000).2.1 = parent90 ∧
    parent90.lastServiceDate = Wire.val "2025-01-01" ∧
    (addMaintenanceRecordFull parent90 maintFeb actorA 7000).map
        (fun r => (r.2.1.lastServiceDate, r.2.1.nextServiceDate))
      = .ok (Wire.val "2026-02-01", Wire.val "2026-05-02") := by decide

/-- C5: with sort mode `status_ops` and no limit, `getEquipmentsList` returns
a permutation of the archive-filtered record set of its path, pairwise ordered
so that maintenance-status records precede inactive-status records precede
active-status records, ties broken by ascending effective next-service millis
and then by ascending name. -/
theorem c5_status_ops_sorted (docs : List EqDoc) (inc fails : Bool) :
    (getEquipmentsList docs { includeArchived := inc, sort := .status_ops, max := none }
        fails).Perm
      (if fails then (if inc then docs else activeClientFilter docs)
        else (if inc then docs else whereNullFilter docs)) ∧
    (getEquipmentsList docs { includeArchived := inc, sort := .status_ops, max := none }
        fails).Pairwise statusOpsSpecRel := by
  cases fails
  · have e1 : getEquipmentsList docs { includeArchived := inc, sort := .status_ops, max := none }
        false
        = (List.insertionSort updatedDescLe
            (if inc then docs else whereNullFilter docs)).insertionSort statusOpsLe := by
      simp [getEquipmentsList, serverOrdered, applyMax]
    rw [e1]
    simp only [Bool.false_eq_true, if_false]
    exact ⟨(List.perm_insertionSort _ _).trans (List.perm_insertionSort _ _),
      (List.sorted_insertionSort _ _).imp fun h => (statusOpsLe_iff _ _).mp h⟩
  · have e2 : getEquipmentsList docs { includeArchived := inc, sort := .status_ops, max := none }
        true
        = (if inc then docs else activeClientFilter docs).insertionSort statusOpsLe := by
      simp [getEquipmentsList, clientSort, applyMax]
    rw [e2]
    simp only [if_true]
    exact ⟨List.perm_insertionSort _ _,
      (List.sorted_insertionSort _ _).imp fun h => (statusOpsLe_iff _ _).mp h⟩

/-- C6 (counterexample): a record whose stored `nextServiceDate` is exactly
the epoch has a derivable next-service instant in the claim's sense, yet the
`next_service_asc` sort places it after a record with no derivable instant at
all, because the code encodes "no instant" as the millis value 0. -/
theorem c6_counterexample :
    specHasDerivableInstant epochNextDoc = true ∧
    specHasDerivableInstant noDatesDoc = false ∧
    getEquipmentsList [epochNextDoc, noDatesDoc]
        { includeArchived := true, sort := .next_service_asc, max := none } true
      = [noDatesDoc, epochNextDoc] := by decide

/-- C6 (amended): with sort mode `next_service_asc` and no limit,
`getEquipmentsList` returns a permutation of the archive-filtered record set
of its path, ordered so that records with a nonzero
`getEquipmentNextServiceMillis` value come first in ascending order, records
whose value is the sentinel 0 (no derivable instant, or an instant exactly at
the epoch) come last, and ties on the value are broken by most recent update
first. -/
theorem c6_next_service_sorted (docs : List EqDoc) (inc fails : Bool) :
    (getEquipmentsList docs { includeArchived := inc, sort := .next_service_asc, max := none }
        fails).Perm
      (if fails then (if inc then docs else activeClientFilter docs)
        else (if inc then docs else whereNullFilter docs)) ∧
    (getEquipmentsList docs { includeArchived := inc, sort := .next_service_asc, max := none }
        fails).Pairwise nextServiceSpecRel := by
  cases fails
  · have e1 : getEquipmentsList docs
        { includeArchived := inc, sort := .next_service_asc, max := none } false
        = (List.insertionSort updatedDescLe
            (if inc then docs else whereNullFilter docs)).insertionSort nextServiceLe := by
      simp [getEquipmentsList, serverOrdered, applyMax]
    rw [e1]
    simp only [Bool.false_eq_true, if_false]
    exact ⟨(List.perm_insertionSort _ _).trans (List.perm_insertionSort _ _),
      (List.sorted_insertionSort _ _).imp fun h => (nextServiceLe_iff _ _).mp h⟩
  · have e2 : getEquipmentsList docs
        { includeArchived := inc, sort := .next_service_asc, max := none } true
        = (if inc then docs else activeClientFilter docs).insertionSort nextServiceLe := by
      simp [getEquipmentsList, clientSort, applyMax]
    rw [e2]
    simp only [if_true]
    exact ⟨List.perm_insertionSort _ _,
      (List.sorted_insertionSort _ _).imp fun h => (nextServiceLe_iff _ _).mp h⟩

/-- C7: when the store rejects the query, `getEquipmentsList` does not
propagate the failure: it takes the whole collection, filters archived
records client-side when `includeArchived` is false, sorts client-side by the
requested mode, applies the limit, and the returned list satisfies the mode's
ordering contract and contains no truthy-archived record. -/
theorem c7_fallback_path (docs : List EqDoc) (opts : ListOpts) :
    getEquipmentsList docs opts true
        = applyMax opts.max (clientSort opts.sort
            (if opts.includeArchived then docs else activeClientFilter docs)) ∧
    (getEquipmentsList docs opts true).Pairwise (modeRel opts.sort) ∧
    (opts.includeArchived = false →
      ∀ e ∈ getEquipmentsList docs opts true, Wire.truthyTs e.archivedAt = false) := by
  have e0 : getEquipmentsList docs opts true
      = applyMax opts.max (clientSort opts.sort
          (if opts.includeArchived then docs else activeClientFilter docs)) := by
    simp [getEquipmentsList]
  refine ⟨e0, ?_, ?_⟩
  · rw [e0]
    have hs := clientSort_sorted opts.sort
      (if opts.includeArchived then docs else activeClientFilter docs)
    cases opts.max with
    | none => simpa [applyMax] using hs
    | some n =>
      simp only [applyMax]
      exact hs.sublist (List.take_sublist n _)
  · intro hinc e he
    rw [e0, hinc] at he
    simp only [Bool.false_eq_true, if_false] at he
    have h1 : e ∈ clientSort opts.sort (activeClientFilter docs) := by
      cases hm : opts.max with
      | none => rw [hm] at he; simpa [applyMax] using he
      | some n =>
        rw [hm] at he
        simp only [applyMax] at he
        exact List.take_subset n _ he
    have h2 : e ∈ activeClientFilter docs := (clientSort_perm _ _).subset h1
    have h2' : e ∈ docs.filter (fun x => !(Wire.truthyTs x.archivedAt)) := h2
    have h3 := (List.mem_filter.mp h2').2
    simpa using h3

/-- Witness for C7: a concrete failing-store call returns exactly the active
record and it is indeed not archived. -/
theorem c7_fallback_path_witness :
    getEquipmentsList [archDoc, nullArchDoc]
        { includeArchived := false, sort := .updated_desc, max := none } true
      = [nullArchDoc] ∧
    Wire.truthyTs nullArchDoc.archivedAt = false := by
  have h := c7_fallback_path [archDoc, nullArchDoc]
    { includeArchived := false, sort := .updated_desc, max := none }
  have e1 : getEquipmentsList [archDoc, nullArchDoc]
      { includeArchived := false, sort := .updated_desc, max := none } true
      = [nullArchDoc] := h.1.trans (by decide)
  exact ⟨e1, h.2.2 rfl nullArchDoc (by rw [e1]; exact List.mem_singleton_self _)⟩

/-- C8 (counterexample): on the non-failing path with sort mode `status_ops`
and limit 1, the store's limit is applied to the `updatedAt`-descending base
order before the client-side sort, so the result is not the first element of
the ordering the same call produces without a limit. -/
theorem c8_counterexample :
    getEquipmentsList [dOpsB, dOpsA]
        { includeArchived := true, sort := .status_ops, max := some 1 } false
      = [dOpsA] ∧
    (getEquipmentsList [dOpsB, dOpsA]
        { includeArchived := true, sort := .status_ops, max := none } false).take 1
      = [dOpsB] ∧
    dOpsA ≠ dOpsB := by decide

/-- C8 (amended): truncation happens after sorting — so the limited result is
a prefix of the unlimited ordering — on the fallback path for every sort mode,
and on the non-failing path for the store-sortable modes `updated_desc`,
`created_desc` and `name_asc`; on the non-failing path with `status_ops` or
`next_service_asc` the store applies the limit before the client-side sort. -/
theorem c8_take_after_sort (docs : List EqDoc) (inc : Bool) (s : EquipmentsSort)
    (fails : Bool) (n : Nat)
    (h : fails = true ∨ s = .updated_desc ∨ s = .created_desc ∨ s = .name_asc) :
    getEquipmentsList docs { includeArchived := inc, sort := s, max := some n } fails
      = (getEquipmentsList docs { includeArchived := inc, sort := s, max := none } fails).take
          n := by
  cases fails
  · rcases h with hf | hs | hs | hs
    · exact absurd hf (by simp)
    all_goals subst hs
    all_goals simp [getEquipmentsList, serverOrdered, applyMax]
  · simp [getEquipmentsList, applyMax]

/-- Witness for C8 (amended) at a concrete fallback-path call. -/
theorem c8_take_after_sort_witness :
    getEquipmentsList [dOpsB, dOpsA]
        { includeArchived := true, sort := .status_ops, max := some 1 } true
      = (getEquipmentsList [dOpsB, dOpsA]
          { includeArchived := true, sort := .status_ops, max := none } true).take 1 :=
  c8_take_after_sort [dOpsB, dOpsA] true .status_ops true 1 (Or.inl rfl)

/-- C9 (counterexample): archiving and unarchiving with a second actor leaves
`updatedBy` — not a timestamp field — different from the never-archived
record's value, so the round-tripped document is distinguishable from the
never-archived one beyond timestamps. -/
theorem c9_counterexample :
    ((unarchiveEquipment (archiveEquipment docU1 actorB 10).1 actorB 20).1).updatedBy
      = Wire.val "u2" ∧
    docU1.updatedBy = Wire.val "u1" ∧
    ((unarchiveEquipment (archiveEquipment docU1 actorB 10).1 actorB 20).1).updatedBy
      ≠ docU1.updatedBy := by decide

/-- C9 (amended): for every document — archived or not — archive followed by
unarchive yields the original document with exactly the archive fields back to
explicit `null` (as `createEquipment` writes them) and the update stamps
(`updatedBy`, `updatedByEmail`, `updatedAt`) set by the unarchiving actor;
every other field is unchanged. -/
theorem c9_archive_round_trip (d : EqDoc) (a1 a2 : Actor) (t1 t2 : Int) :
    (unarchiveEquipment (archiveEquipment d a1 t1).1 a2 t2).1
      = { d with
            archivedAt := .null
            archivedBy := .null
            archivedByEmail := .null
            updatedBy := .val a2.uid
            updatedByEmail := emailOrNull a2
            updatedAt := .val t2 } := rfl

/-- C10: `updateEquipment` with an input omitting `serviceIntervalDays`
overwrites the stored interval to 180 whatever it was, and when the input also
omits `nextServiceDate` but carries a parsable `lastServiceDate`, the stored
`nextServiceDate` is overwritten with `lastServiceDate + 180` days; the
previously stored interval is never read. -/
theorem c10_update_resets_interval (d : EqDoc) (data : EqInput) (actor : Actor) (now : Int)
    (hint : data.serviceIntervalDays = Wire.missing) :
    (∀ e ev, updateEquipment d data actor now = .ok (e, ev) →
      e.serviceIntervalDays = Wire.val 180) ∧
    (∀ l dl, data.nextServiceDate = Wire.missing → data.lastServiceDate = Wire.val l →
      parseDateStr l = some dl →
      (updateEquipment d data actor now).map
          (fun r => (r.1.serviceIntervalDays, r.1.nextServiceDate))
        = .ok (Wire.val 180, Wire.val (formatDateStr (dl + 180)))) := by
  have hiv : inputInterval data = 180 := by simp [inputInterval, hint]
  constructor
  · intro e ev h
    unfold updateEquipment at h
    split at h
    · exact absurd h (by simp)
    · rw [Except.ok.injEq, Prod.mk.injEq] at h
      obtain ⟨h1, -⟩ := h
      subst h1
      simp [hiv]
  · intro l dl hnd hld hpl
    have hne : l ≠ "" := by
      intro h0
      rw [h0] at hpl
      exact absurd hpl (by simp [parseDateStr])
    have hnext : computeNextField data (inputInterval data)
        = .ok (.val (formatDateStr (dl + 180))) := by
      unfold computeNextField lastFallback
      rw [hnd, hld, hiv]
      simp only [optTrim]
      rw [if_pos hne]
      simp [computeNextServiceDate, hpl]
    unfold updateEquipment
    rw [hnext, hiv]
    simp [Except.map, Wire.mergeInto]

/-- Witness for C10: updating a record whose stored interval is 365 with an
input that has no interval and only `lastServiceDate = "2025-07-15"` stores
interval 180 and next date `2025-07-15 + 180` days (the spec's "2026-01-11"
scenario). -/
theorem c10_update_resets_interval_witness :
    (updateEquipment docIv365 inputLast actorA 999).map
        (fun r => (r.1.serviceIntervalDays, r.1.nextServiceDate))
      = .ok (Wire.val 180, Wire.val (formatDateStr (daysFromCivil 2025 7 15 + 180))) ∧
    formatDateStr (daysFromCivil 2025 7 15 + 180) = "2026-01-11" := by
  constructor
  · exact (c10_update_resets_interval docIv365 inputLast actorA 999 rfl).2 "2025-07-15"
      (daysFromCivil 2025 7 15) rfl rfl (by decide)
  · decide

end EquipmentDashboard
